import Mathlib

/-!
Verification development for the `manger` repository (`src/print.py`), a
menu-driven file manager with two terminal mini-games.  The definitions below
are a shallow embedding of the path-confinement layer (`safe_path`,
`ensure_in_base`), the file operations (`create_file`, `write_file`,
`append_file`, `erase_file`), and the two game loops (`run_pacman`,
`run_mario`).  Pure string/path logic is translated character-for-character;
the filesystem is modelled as an association list from paths to contents; the
interactive game loops are modelled as one-tick step functions with the
program's unseeded randomness threaded in as explicit oracle arguments.
-/

namespace Manger

/-! ## PathGuard: `safe_path` (print.py lines 14-27)

Filenames and paths are modelled as `List Char` (Python `str`).  The errors
mirror the distinct `ValueError` messages raised by the source. -/

inductive PErr where
  | emptyName    -- "Filename cannot be empty"
  | invalidName  -- "Invalid filename" (".." substring or leading separator)
  | invalidChars -- "Filename contains invalid characters"
  | pathEscape   -- "Operation outside allowed directory" (ensure_in_base)
deriving DecidableEq, Repr

/-- True when the list starts with two dots (one alignment of the Python
substring test `".." in filename`). -/
def startsDotDot : List Char → Bool
  | c :: d :: _ => c == '.' && d == '.'
  | _ => false

/-- Models Python `".." in filename`: substring containment of `".."`. -/
def hasDotDot : List Char → Bool
  | [] => false
  | c :: rest => startsDotDot (c :: rest) || hasDotDot rest

/-- Models Python `filename.startswith(('/', '\\'))`. -/
def startsWithSep : List Char → Bool
  | [] => false
  | c :: _ => c == '/' || c == '\\'

/-- One character of the class `[\w\-. ]` from `VALID_NAME_RE` (print.py
line 11): word characters (letters, digits, underscore) plus hyphen, dot and
space.  `\w` is taken in its ASCII reading. -/
def validChar (c : Char) : Bool :=
  c.isAlphanum || c == '_' || c == '-' || c == '.' || c == ' '

/-- Models Python `VALID_NAME_RE.match(filename)` for the anchored pattern
`^[\w\-. ]+$`: a non-empty run of `validChar`s.  Python's `$` also matches
just before a single trailing newline, so a final `'\n'` after such a run is
accepted as well. -/
def matchesValidName (s : List Char) : Bool :=
  if s.getLast? = some '\n' then
    !s.dropLast.isEmpty && s.dropLast.all validChar
  else
    !s.isEmpty && s.all validChar

/-- Embedding of `safe_path` (print.py lines 14-22).  The call
`(BASE_DIR / filename).resolve()` touches the filesystem (it canonicalizes
through the directory tree), so it is abstracted as the function argument
`resolveFs`; every lexical check happens before `resolveFs` is consulted,
exactly as in the source. -/
def safe_path (resolveFs : List Char → List Char) (filename : List Char) :
    Except PErr (List Char) :=
  if filename.isEmpty then .error .emptyName
  else if hasDotDot filename || startsWithSep filename then .error .invalidName
  else if !matchesValidName filename then .error .invalidChars
  else .ok (resolveFs filename)

/-- Embedding of `ensure_in_base` (print.py lines 25-27): the string
representation of the path must start with the string representation of the
base directory. -/
def ensure_in_base (base p : List Char) : Except PErr Unit :=
  if base.isPrefixOf p then .ok () else .error .pathEscape

/-- Model of `(BASE_DIR / filename).resolve()` on a symlink-free POSIX
filesystem whose `BASE_DIR` is already canonical, for a `filename` that
contains no path separator and is not the `".."` component (both guaranteed
by the checks of `safe_path` that precede the call): `pathlib` drops a bare
`"."` component and otherwise appends the name as one new component, and
`resolve` then has nothing left to rewrite. -/
def pyResolve (base : List Char) (filename : List Char) : List Char :=
  if filename = ['.'] then base else base ++ '/' :: filename

/-! ## FileStore: the file operations (print.py lines 40-142)

The filesystem is an association list from resolved path to content, both
`String`.  Each operation embeds the body of the corresponding function after
the `safe_path`/`ensure_in_base` resolution; interactive confirmations are
threaded in as explicit `Bool` arguments, as they are answers read from the
user. -/

abbrev FS := List (String × String)

/-- Lookup: models `path.exists()` / `path.read_text()` (and thereby the
reading part of `view_file`, print.py lines 54-67). -/
def fsRead : FS → String → Option String
  | [], _ => none
  | (q, c) :: rest, p => if q = p then some c else fsRead rest p

/-- Models `path.write_text(content)`: truncate-or-create with the given
content. -/
def fsWrite : FS → String → String → FS
  | [], p, c => [(p, c)]
  | (q, d) :: rest, p, c =>
      if q = p then (p, c) :: rest else (q, d) :: fsWrite rest p c

inductive CreateRes where
  | created
  | alreadyExists
deriving DecidableEq, Repr

/-- Embedding of the core of `create_file` (print.py lines 40-51): if the
path exists the function reports and returns without writing, otherwise it
writes the empty string. -/
def create_file (fs : FS) (p : String) : FS × CreateRes :=
  if (fsRead fs p).isSome then (fs, .alreadyExists)
  else (fsWrite fs p "", .created)

/-- Embedding of the reading core of `view_file` (print.py lines 54-67):
content when the file exists, `none` ("File does not exist.") otherwise. -/
def view_file (fs : FS) (p : String) : Option String :=
  fsRead fs p

/-- Embedding of the core of `write_file` (print.py lines 70-85): the lines
collected up to `EOF` are joined with `"\n"` and written with
`write_text`. -/
def write_file (fs : FS) (p : String) (lines : List String) : FS :=
  fsWrite fs p (String.intercalate "\n" lines)

/-- Embedding of the core of `append_file` (print.py lines 88-106): when the
file does not exist the user is asked whether to create it (`confirmCreate`)
and a refusal returns without touching the filesystem; otherwise the file is
opened in append mode (which creates it when absent) and every line is
written followed by `"\n"`. -/
def append_file (fs : FS) (p : String) (confirmCreate : Bool)
    (lines : List String) : FS :=
  if (fsRead fs p).isNone && !confirmCreate then fs
  else fsWrite fs p (((fsRead fs p).getD "") ++ String.join (lines.map (· ++ "\n")))

inductive EraseRes where
  | erased
  | notFound
  | cancelled
deriving DecidableEq, Repr

/-- Embedding of the core of `erase_file` (print.py lines 109-124): a missing
file reports "File does not exist." and nothing is written; otherwise the
user confirms (`confirm`) and on confirmation the content is replaced by the
empty string. -/
def erase_file (fs : FS) (p : String) (confirm : Bool) : FS × EraseRes :=
  if (fsRead fs p).isNone then (fs, .notFound)
  else if !confirm then (fs, .cancelled)
  else (fsWrite fs p "", .erased)

/-! ## The pursuit game: `run_pacman` (print.py lines 167-289)

The grid is a list of rows of cells; positions are `Int × Int` pairs (Python
integers), since candidate positions such as `player[0] - 1` may be negative
before the bounds check.  The two uses of the global random generator
(`random.shuffle` of the candidate list and the `random.random() < 0.15`
tie-acceptance draws) are threaded in as explicit oracles. -/

inductive Cell where
  | wall  -- '#'
  | dot   -- '.'
  | empty -- ' '
deriving DecidableEq, BEq, Repr

abbrev Grid := List (List Cell)

abbrev Pos := Int × Int

inductive GStatus where
  | running
  | won
  | lost
  | quitGame
deriving DecidableEq, Repr

inductive PInput where
  | w | a | s | d  -- the four directions
  | q              -- quit
  | other          -- any other line: dr = dc = 0
deriving DecidableEq, Repr

/-- List indexing with a fallback, used for all grid accesses. -/
def nth : List α → Nat → α → α
  | [], _, d => d
  | x :: _, 0, _ => x
  | _ :: xs, i + 1, d => nth xs i d

/-- In-place list update, used for all grid writes (no effect out of
range). -/
def setN : List α → Nat → α → List α
  | [], _, _ => []
  | _ :: xs, 0, a => a :: xs
  | x :: xs, i + 1, a => x :: setN xs i a

/-- `grid[r][c]`; the source only reads it after an explicit bounds check, so
the fallback `wall` for out-of-range indices is never observable. -/
def cellAt (g : Grid) (r c : Int) : Cell :=
  if 0 ≤ r ∧ 0 ≤ c then nth (nth g r.toNat []) c.toNat Cell.wall else Cell.wall

/-- `grid[r][c] = v`; only invoked by the source at in-range indices. -/
def setCell (g : Grid) (r c : Int) (v : Cell) : Grid :=
  setN g r.toNat (setN (nth g r.toNat []) c.toNat v)

/-- The bounds-and-wall test `0 <= r < rows and 0 <= c < cols and
grid[r][c] != '#'` shared by the player move (line 244) and the ghost
candidate scan (line 258). -/
abbrev okPos (g : Grid) (rows cols : Int) (p : Pos) : Prop :=
  0 ≤ p.1 ∧ p.1 < rows ∧ 0 ≤ p.2 ∧ p.2 < cols ∧ cellAt g p.1 p.2 ≠ Cell.wall

/-- `remaining = sum(1 for r ... for c ... if grid[r][c] == '.')`
(line 233). -/
def countDots : Grid → Nat
  | [] => 0
  | row :: rest => (row.filter (fun c => c == Cell.dot)).length + countDots rest

/-- The direction table of lines 238-242 (anything but W/A/S/D leaves
`dr = dc = 0`). -/
def dirDelta : PInput → Int × Int
  | .w => (-1, 0)
  | .s => (1, 0)
  | .a => (0, -1)
  | .d => (0, 1)
  | _ => (0, 0)

/-- The player sub-step of lines 243-248: compute the candidate cell, accept
it only when in bounds and not a wall, and on acceptance consume a dot
(clear the cell, increment the score).  Returns the new grid, player
position and score. -/
def playerStep (g : Grid) (rows cols : Int) (p : Pos) (score : Nat)
    (dr dc : Int) : Grid × Pos × Nat :=
  if okPos g rows cols (p.1 + dr, p.2 + dc) then
    if cellAt g (p.1 + dr) (p.2 + dc) = Cell.dot then
      (setCell g (p.1 + dr) (p.2 + dc) Cell.empty, (p.1 + dr, p.2 + dc), score + 1)
    else (g, (p.1 + dr, p.2 + dc), score)
  else (g, p, score)

/-- Manhattan distance `abs(r1 - r2) + abs(c1 - c2)` (lines 254, 259). -/
def pdist (a b : Pos) : Nat :=
  (a.1 - b.1).natAbs + (a.2 - b.2).natAbs

/-- The candidate-scanning loop of lines 255-263 for one ghost, over an
already shuffled candidate list.  The accumulator carries `best_move`,
`best_dist` and the index of the next `random.random()` draw in the oracle
`accept`; a draw is consumed exactly when the short-circuit `or` of line 261
reaches its right operand. -/
def ghostScan (g : Grid) (rows cols : Int) (player : Pos)
    (accept : Nat → Bool) : List Pos → Pos × Nat × Nat → Pos × Nat × Nat
  | [], st => st
  | c :: rest, (best, bestDist, k) =>
      if okPos g rows cols c then
        if pdist c player < bestDist then
          ghostScan g rows cols player accept rest (c, pdist c player, k)
        else if accept k ∧ pdist c player ≤ bestDist then
          ghostScan g rows cols player accept rest (c, pdist c player, k + 1)
        else
          ghostScan g rows cols player accept rest (best, bestDist, k + 1)
      else ghostScan g rows cols player accept rest (best, bestDist, k)

/-- One ghost's move (lines 251-264): the candidate list (up, down, left,
right, stay) is shuffled — modelled by reading the candidates through the
index list `perm`, so any `random.shuffle` outcome is one choice of `perm` —
and then scanned starting from the current position and distance. -/
def ghostMove (g : Grid) (rows cols : Int) (player : Pos) (perm : List Nat)
    (accept : Nat → Bool) (gh : Pos) (k : Nat) : Pos × Nat :=
  let cands := [(gh.1 - 1, gh.2), (gh.1 + 1, gh.2), (gh.1, gh.2 - 1),
                (gh.1, gh.2 + 1), (gh.1, gh.2)]
  let shuffled := perm.filterMap (fun i => cands.get? i)
  let r := ghostScan g rows cols player accept shuffled (gh, pdist gh player, k)
  (r.1, r.2.2)

/-- The `for gi, g in enumerate(ghosts)` loop of lines 251-264: each ghost is
updated in order against the fixed post-move grid and player position;
`gi` indexes the per-ghost shuffle and `k` threads the draw counter. -/
def ghostsUpdate (g : Grid) (rows cols : Int) (player : Pos)
    (perm : Nat → List Nat) (accept : Nat → Bool) :
    List Pos → Nat → Nat → List Pos
  | [], _, _ => []
  | gh :: rest, gi, k =>
      let r := ghostMove g rows cols player (perm gi) accept gh k
      r.1 :: ghostsUpdate g rows cols player perm accept rest (gi + 1) r.2

/-- The randomness consumed by one iteration of the game loop: a shuffle per
ghost (as an index order into the 5-candidate list) and the stream of
tie-acceptance draws. -/
structure PacRng where
  perm : Nat → List Nat
  accept : Nat → Bool

structure PacState where
  rows : Int
  cols : Int
  grid : Grid
  player : Pos
  ghosts : List Pos
  lives : Nat
  score : Nat
  turns : Nat
  status : GStatus
deriving Repr

/-- `max_turns = 2000` (line 228). -/
def maxTurns : Nat := 2000

/-- One iteration of the `while turns < max_turns and lives > 0` loop
(lines 231-286): quit check, player move, ghost moves, collision handling
(life loss with respawn to the centre, or game over), then the win check
against `remaining`, the dot count taken at the START of the iteration
(line 233) — before the player's move of this tick. -/
def pacStep (rng : PacRng) (st : PacState) (inp : PInput) : PacState :=
  if st.status = GStatus.running ∧ st.turns < maxTurns ∧ 0 < st.lives then
    if inp = PInput.q then { st with status := GStatus.quitGame }
    else
      let remaining := countDots st.grid
      let mv := playerStep st.grid st.rows st.cols st.player st.score
        (dirDelta inp).1 (dirDelta inp).2
      let g1 := mv.1
      let p1 := mv.2.1
      let sc1 := mv.2.2
      let ghosts1 := ghostsUpdate g1 st.rows st.cols p1 rng.perm rng.accept
        st.ghosts 0 0
      if p1 ∈ ghosts1 then
        if 0 < st.lives - 1 then
          { st with grid := g1, player := (st.rows / 2, st.cols / 2),
                    ghosts := ghosts1, lives := st.lives - 1, score := sc1,
                    turns := st.turns + 1 }
        else
          { st with grid := g1, player := p1, ghosts := ghosts1,
                    lives := st.lives - 1, score := sc1,
                    status := GStatus.lost }
      else if remaining = 0 then
        { st with grid := g1, player := p1, ghosts := ghosts1, score := sc1,
                  status := GStatus.won }
      else
        { st with grid := g1, player := p1, ghosts := ghosts1, score := sc1,
                  turns := st.turns + 1 }
  else st

/-- The cell the initialization loops of lines 192-198 leave at `(r, c)`:
border walls, the inner ring at rows `2` and `rows - 3` spanning columns
`2 .. cols - 3`, dots everywhere else. -/
def pacCell (rows cols r c : Nat) : Cell :=
  if r = 0 ∨ r = rows - 1 ∨ c = 0 ∨ c = cols - 1 then Cell.wall
  else if (r = 2 ∨ r = rows - 3) ∧ 2 ≤ c ∧ c < cols - 2 then Cell.wall
  else Cell.dot

/-- The grid built by lines 189-198. -/
def mkGrid (rows cols : Nat) : Grid :=
  (List.range rows).map (fun r => (List.range cols).map (fun c => pacCell rows cols r c))

/-- `corners = [(1,1), (1, cols-2), (rows-2, 1), (rows-2, cols-2)]`
(line 204). -/
def pacCorners (rows cols : Nat) : List Pos :=
  [(1, 1), (1, (cols : Int) - 2), ((rows : Int) - 2, 1),
   ((rows : Int) - 2, (cols : Int) - 2)]

/-- The initial game state of lines 187-209: player at the centre, the first
`nghosts` corners occupied, 3 lives, score 0. -/
def pacInit (rows cols nghosts : Nat) : PacState :=
  { rows := rows, cols := cols, grid := mkGrid rows cols,
    player := ((rows : Int) / 2, (cols : Int) / 2),
    ghosts := (pacCorners rows cols).take nghosts,
    lives := 3, score := 0, turns := 0, status := GStatus.running }

/-- The level presets of lines 173-177 as `(rows, cols, ghosts)`. -/
def pacLevels : List (Nat × Nat × Nat) :=
  [(10, 20, 1), (12, 26, 2), (14, 32, 3)]

/-- A run of the loop: state after `n` processed inputs, the per-tick
randomness and inputs supplied as streams. -/
def pacRun (rngs : Nat → PacRng) (inps : Nat → PInput) (s0 : PacState) :
    Nat → PacState
  | 0 => s0
  | n + 1 => pacStep (rngs n) (pacRun rngs inps s0 n) (inps n)

/-- The positional invariant of the pursuit game: the player, every ghost,
and the respawn point (the centre cell, target of line 272) are in bounds
and not on a wall. -/
abbrev PacInv (st : PacState) : Prop :=
  okPos st.grid st.rows st.cols st.player ∧
  (∀ gh ∈ st.ghosts, okPos st.grid st.rows st.cols gh) ∧
  okPos st.grid st.rows st.cols (st.rows / 2, st.cols / 2)

/-- A concrete deterministic choice of the randomness: identity shuffle,
every tie-acceptance draw refused. -/
def rng0 : PacRng :=
  { perm := fun _ => [0, 1, 2, 3, 4], accept := fun _ => false }

/-- The level-1 grid with every dot cleared (the cells a full playthrough
has consumed). -/
def clearedGrid : Grid :=
  (mkGrid 10 20).map (fun row =>
    row.map (fun c => if c == Cell.dot then Cell.empty else c))

/-- A late-game level-1 state: exactly one dot left, immediately to the right
of the player; the single ghost is far away in its starting corner. -/
def lastDotState : PacState :=
  { rows := 10, cols := 20, grid := setCell clearedGrid 5 11 Cell.dot,
    player := (5, 10), ghosts := [(1, 1)], lives := 3, score := 157,
    turns := 300, status := GStatus.running }

/-- The same situation with the final dot already consumed: the dot count at
the start of the tick is zero. -/
def noDotState : PacState :=
  { rows := 10, cols := 20, grid := clearedGrid, player := (5, 11),
    ghosts := [(2, 1)], lives := 3, score := 158, turns := 301,
    status := GStatus.running }

/-! ## The runner game: `run_mario` (print.py lines 292-345)

Obstacle positions are `Int` (they are decremented and compared with 0);
the per-tick `random.random() < 0.2` spawn draw is the explicit `spawn`
argument. -/

inductive MStatus where
  | running
  | quitGame
  | dead
deriving DecidableEq, Repr

inductive MInput where
  | j     -- jump
  | q     -- quit
  | wait  -- bare Enter or anything else
deriving DecidableEq, Repr

structure MarioState where
  mario_y : Nat
  jump_ticks : Nat
  obstacles : List Int
  score : Nat
  status : MStatus
deriving Repr

/-- `width = 30` (line 296). -/
def marioWidth : Int := 30

/-- One iteration of the `for tick in range(1, 1000)` loop (lines 303-345):
spawn, input, jump start (only from the ground), obstacle advance, jump
countdown, collision check against column 2, score. -/
def marioStep (spawn : Bool) (st : MarioState) (i : MInput) : MarioState :=
  if st.status = MStatus.running then
    let obs0 := if spawn then st.obstacles ++ [marioWidth - 1] else st.obstacles
    if i = MInput.q then { st with obstacles := obs0, status := MStatus.quitGame }
    else
      let jt1 := if i = MInput.j ∧ st.mario_y = 0 then 2 else st.jump_ticks
      let my1 := if i = MInput.j ∧ st.mario_y = 0 then 1 else st.mario_y
      let obs1 := (obs0.map (fun x => x - 1)).filter (fun x => decide (0 ≤ x))
      let jt2 := if 0 < jt1 then jt1 - 1 else jt1
      let my2 := if 0 < jt1 then (if jt1 - 1 = 0 then 0 else my1) else my1
      if (2 : Int) ∈ obs1 ∧ my2 = 0 then
        { mario_y := my2, jump_ticks := jt2, obstacles := obs1,
          score := st.score, status := MStatus.dead }
      else
        { mario_y := my2, jump_ticks := jt2, obstacles := obs1,
          score := st.score + 1, status := MStatus.running }
  else st

/-- The initial runner state (lines 297-300). -/
def marioInit : MarioState :=
  { mario_y := 0, jump_ticks := 0, obstacles := [], score := 0,
    status := MStatus.running }

/-! ## Lemmas about the PathGuard layer -/

theorem startsDotDot_iff (s : List Char) :
    startsDotDot s = true ↔ ∃ v, s = '.' :: '.' :: v := by
  match s with
  | [] => simp [startsDotDot]
  | [c] => simp [startsDotDot]
  | c :: d :: t =>
    simp only [startsDotDot, Bool.and_eq_true, beq_iff_eq, List.cons.injEq]
    constructor
    · rintro ⟨rfl, rfl⟩
      exact ⟨t, rfl, rfl, rfl⟩
    · rintro ⟨v, rfl, rfl, rfl⟩
      exact ⟨rfl, rfl⟩

theorem hasDotDot_iff (s : List Char) :
    hasDotDot s = true ↔ ∃ u v, s = u ++ '.' :: '.' :: v := by
  induction s with
  | nil => simp [hasDotDot]
  | cons c rest ih =>
    simp only [hasDotDot, Bool.or_eq_true, ih, startsDotDot_iff]
    constructor
    · rintro (⟨v, hv⟩ | ⟨u, v, rfl⟩)
      · exact ⟨[], v, by simpa using hv⟩
      · exact ⟨c :: u, v, rfl⟩
    · rintro ⟨u, v, huv⟩
      match u, huv with
      | [], huv => exact Or.inl ⟨v, by simpa using huv⟩
      | a :: u', huv =>
        have h1 : c = a ∧ rest = u' ++ '.' :: '.' :: v := by simpa using huv
        exact Or.inr ⟨u', v, h1.2⟩

/-- C3: every name containing `".."` as a substring, or starting with a path
separator, or empty, is rejected by `safe_path` with a validation error
(`emptyName` or `invalidName`), and the outcome is independent of the
filesystem canonicalization function: the rejection is decided purely
lexically, before `resolveFs` is ever consulted. -/
theorem safe_path_lexical_reject (f g : List Char → List Char) (s : List Char)
    (h : (∃ u v, s = u ++ '.' :: '.' :: v) ∨ startsWithSep s = true ∨ s = []) :
    (safe_path f s = .error PErr.emptyName ∨
      safe_path f s = .error PErr.invalidName) ∧
    safe_path f s = safe_path g s := by
  rcases h with h | h | rfl
  · have hd : hasDotDot s = true := (hasDotDot_iff s).2 h
    have hne : s.isEmpty = false := by
      obtain ⟨u, v, rfl⟩ := h
      simp [List.isEmpty_eq_false]
    refine ⟨Or.inr ?_, ?_⟩ <;> simp [safe_path, hd, hne]
  · have hne : s.isEmpty = false := by
      cases s with
      | nil => simp [startsWithSep] at h
      | cons c t => simp
    refine ⟨Or.inr ?_, ?_⟩ <;> simp [safe_path, h, hne]
  · exact ⟨Or.inl (by simp [safe_path]), by simp [safe_path]⟩

theorem safe_path_lexical_reject_witness :
    (safe_path id "../x".toList = .error PErr.emptyName ∨
      safe_path id "../x".toList = .error PErr.invalidName) ∧
    safe_path id "../x".toList = safe_path (fun l => '/' :: l) "../x".toList :=
  safe_path_lexical_reject id (fun l => '/' :: l) "../x".toList
    (Or.inl ⟨[], ['/', 'x'], rfl⟩)

/-- C2 (counterexample): the filename `"a..b.txt"` — whose `".."` is only a
substring, not a path segment — is NOT accepted by `safe_path`; it is
rejected with `invalidName`. -/
theorem safe_path_a_dotdot_b_rejected :
    safe_path (pyResolve "/base".toList) "a..b.txt".toList
      = .error PErr.invalidName := rfl

/-- C2 (amended): the parent-reference rejection of `safe_path` is a plain
substring test, not a path-segment-aware one: every name containing `".."`
anywhere — in particular `"a..b.txt"` — is rejected with `invalidName`,
whatever the filesystem resolver. -/
theorem safe_path_rejects_substring_dotdot (f : List Char → List Char)
    (s : List Char) (h : ∃ u v, s = u ++ '.' :: '.' :: v) :
    safe_path f s = .error PErr.invalidName := by
  have hd : hasDotDot s = true := (hasDotDot_iff s).2 h
  have hne : s.isEmpty = false := by
    obtain ⟨u, v, rfl⟩ := h
    simp [List.isEmpty_eq_false]
  simp [safe_path, hd, hne]

theorem safe_path_rejects_substring_dotdot_witness :
    safe_path (pyResolve "/base".toList) "a.._b".toList
      = .error PErr.invalidName :=
  safe_path_rejects_substring_dotdot _ _ ⟨['a'], ['_', 'b'], rfl⟩

/-- C4: every name accepted by `safe_path` resolves (symlink-free model,
see `pyResolve`) to a path whose string representation is prefixed by the
base directory's, so `ensure_in_base` cannot take its `pathEscape` branch on
a path produced by `safe_path`. -/
theorem safe_path_contained_in_base (base name p : List Char)
    (h : safe_path (pyResolve base) name = .ok p) :
    base <+: p ∧ ensure_in_base base p = .ok () := by
  have hp : p = pyResolve base name := by
    unfold safe_path at h
    split_ifs at h
    all_goals first
      | exact Except.noConfusion h
      | · have h' := h
          simp only [Except.ok.injEq] at h'
          exact h'.symm
  subst hp
  unfold pyResolve
  split_ifs
  · exact ⟨List.prefix_refl base,
      by simp [ensure_in_base, List.isPrefixOf_iff_prefix]⟩
  · exact ⟨List.prefix_append base _,
      by simp [ensure_in_base, List.isPrefixOf_iff_prefix, List.prefix_append]⟩

theorem safe_path_contained_in_base_witness :
    "/base".toList <+: "/base/notes.txt".toList ∧
    ensure_in_base "/base".toList "/base/notes.txt".toList = .ok () :=
  safe_path_contained_in_base "/base".toList "notes.txt".toList
    "/base/notes.txt".toList rfl

/-! ## Lemmas about the FileStore layer -/

theorem fsRead_fsWrite_self (fs : FS) (p c : String) :
    fsRead (fsWrite fs p c) p = some c := by
  induction fs with
  | nil => simp [fsWrite, fsRead]
  | cons e rest ih =>
    obtain ⟨q, d⟩ := e
    by_cases h : q = p
    · subst h
      simp [fsWrite, fsRead]
    · simp [fsWrite, fsRead, h, ih]

/-- C5: `create_file` on an existing path returns `alreadyExists` and leaves
the filesystem — in particular that file's content — untouched, never
truncating; on a missing path it returns `created` and a subsequent read of
the path yields empty content. -/
theorem create_file_spec (fs : FS) (p : String) :
    ((fsRead fs p).isSome = true →
      create_file fs p = (fs, CreateRes.alreadyExists)) ∧
    (fsRead fs p = none →
      (create_file fs p).2 = CreateRes.created ∧
      view_file (create_file fs p).1 p = some "") := by
  constructor
  · intro h
    simp [create_file, h]
  · intro h
    simp [create_file, h, view_file, fsRead_fsWrite_self]

theorem create_file_spec_witness :
    create_file [("a.txt", "hi")] "a.txt"
      = ([("a.txt", "hi")], CreateRes.alreadyExists) ∧
    ((create_file [] "b.txt").2 = CreateRes.created ∧
      view_file (create_file [] "b.txt").1 "b.txt" = some "") :=
  ⟨(create_file_spec [("a.txt", "hi")] "a.txt").1 rfl,
   (create_file_spec [] "b.txt").2 rfl⟩

/-- C6: overwriting with content `"X"` then reading returns exactly `"X"`,
and appending lines `["a", "b"]` after overwriting with empty content yields
`"a\nb\n"`: `append_file` writes each line followed by a line
terminator. -/
theorem overwrite_append_read (fs : FS) (p : String) :
    view_file (write_file fs p ["X"]) p = some "X" ∧
    view_file (append_file (write_file fs p []) p true ["a", "b"]) p
      = some "a\nb\n" := by
  constructor
  · show fsRead (fsWrite fs p (String.intercalate "\n" ["X"])) p = some "X"
    rw [fsRead_fsWrite_self]
    rfl
  · have h0 : fsRead (write_file fs p []) p
        = some (String.intercalate "\n" []) := fsRead_fsWrite_self fs p _
    unfold view_file append_file
    rw [h0]
    simp only [Option.isNone_some, Bool.not_true, Bool.and_false,
      Bool.false_eq_true, if_false, Option.getD_some]
    rw [fsRead_fsWrite_self]
    rfl

/-- C7: truncating an existing file empties it — a read afterwards returns
empty content; truncating a missing file reports `notFound` and returns the
filesystem unchanged (in particular it does not create the file), whatever
the confirmation answer would have been. -/
theorem erase_file_spec (fs : FS) (p : String) (confirm : Bool) :
    ((fsRead fs p).isSome = true →
      view_file (erase_file fs p true).1 p = some "") ∧
    (fsRead fs p = none → erase_file fs p confirm = (fs, EraseRes.notFound)) := by
  constructor
  · intro h
    obtain ⟨c, hc⟩ := Option.isSome_iff_exists.1 h
    simp [erase_file, hc, view_file, fsRead_fsWrite_self]
  · intro h
    simp [erase_file, h]

/-! ## Lemmas about the grid primitives -/

theorem nth_of_ge (l : List α) (j : Nat) (d : α) (h : l.length ≤ j) :
    nth l j d = d := by
  induction l generalizing j with
  | nil => rfl
  | cons x xs ih =>
    cases j with
    | zero => exact absurd h (by simp)
    | succ j => exact ih j (by simpa using h)

theorem lt_length_of_nth_ne (l : List α) (j : Nat) (d : α)
    (h : nth l j d ≠ d) : j < l.length := by
  by_contra hc
  exact h (nth_of_ge l j d (Nat.le_of_not_lt hc))

theorem nth_setN (l : List α) (i j : Nat) (a d : α) :
    nth (setN l i a) j d = if i = j ∧ j < l.length then a else nth l j d := by
  induction l generalizing i j with
  | nil =>
    rw [if_neg (by simp)]
    rfl
  | cons x xs ih =>
    cases i with
    | zero =>
      cases j with
      | zero => simp [setN, nth]
      | succ j => simp [setN, nth]
    | succ i =>
      cases j with
      | zero => simp [setN, nth]
      | succ j =>
        show nth (setN xs i a) j d = _
        rw [ih]
        by_cases h : i = j ∧ j < xs.length
        · rw [if_pos h,
            if_pos (by simp only [List.length_cons]; omega :
              i + 1 = j + 1 ∧ j + 1 < (x :: xs).length)]
        · rw [if_neg h, if_neg (by simp only [List.length_cons]; omega)]
          rfl

theorem cellAt_ranges (g : Grid) (r c : Int) (h : cellAt g r c ≠ Cell.wall) :
    0 ≤ r ∧ 0 ≤ c ∧ r.toNat < g.length ∧
      c.toNat < (nth g r.toNat []).length := by
  unfold cellAt at h
  by_cases hs : 0 ≤ r ∧ 0 ≤ c
  · rw [if_pos hs] at h
    refine ⟨hs.1, hs.2, ?_, lt_length_of_nth_ne _ _ _ h⟩
    by_contra hr
    have hrow : nth g r.toNat [] = ([] : List Cell) :=
      nth_of_ge _ _ _ (Nat.le_of_not_lt hr)
    rw [hrow] at h
    exact h rfl
  · rw [if_neg hs] at h
    exact absurd rfl h

theorem cellAt_setCell_self (g : Grid) (r c : Int) (v : Cell)
    (h : cellAt g r c ≠ Cell.wall) :
    cellAt (setCell g r c v) r c = v := by
  obtain ⟨hr, hc, hrl, hcl⟩ := cellAt_ranges g r c h
  unfold cellAt setCell
  rw [if_pos ⟨hr, hc⟩, nth_setN, if_pos ⟨rfl, hrl⟩, nth_setN, if_pos ⟨rfl, hcl⟩]

theorem cellAt_setCell_cases (g : Grid) (r c : Int) (v : Cell) (r' c' : Int) :
    cellAt (setCell g r c v) r' c' = cellAt g r' c' ∨
      cellAt (setCell g r c v) r' c' = v := by
  unfold cellAt setCell
  by_cases hs : 0 ≤ r' ∧ 0 ≤ c'
  · rw [if_pos hs, if_pos hs, nth_setN]
    by_cases h1 : r.toNat = r'.toNat ∧ r'.toNat < g.length
    · rw [if_pos h1, nth_setN]
      by_cases h2 : c.toNat = c'.toNat ∧ c'.toNat < (nth g r.toNat []).length
      · rw [if_pos h2]
        exact Or.inr rfl
      · rw [if_neg h2, h1.1]
        exact Or.inl rfl
    · rw [if_neg h1]
      exact Or.inl rfl
  · rw [if_neg hs, if_neg hs]
    exact Or.inl rfl

/-! ## Lemmas about the pursuit-game step -/

theorem playerStep_grid_walls (g : Grid) (rows cols : Int) (p : Pos)
    (score : Nat) (dr dc : Int) (r c : Int)
    (h : cellAt (playerStep g rows cols p score dr dc).1 r c = Cell.wall) :
    cellAt g r c = Cell.wall := by
  unfold playerStep at h
  split_ifs at h
  · rcases cellAt_setCell_cases g (p.1 + dr) (p.2 + dc) Cell.empty r c with hc | hc
    · rw [← hc]
      exact h
    · rw [h] at hc
      exact absurd hc (by simp)
  · exact h
  · exact h

theorem playerStep_ok (g : Grid) (rows cols : Int) (p : Pos) (score : Nat)
    (dr dc : Int) (hp : okPos g rows cols p) :
    okPos (playerStep g rows cols p score dr dc).1 rows cols
      (playerStep g rows cols p score dr dc).2.1 := by
  unfold playerStep
  split_ifs with h1 h2
  · refine ⟨h1.1, h1.2.1, h1.2.2.1, h1.2.2.2.1, ?_⟩
    rw [cellAt_setCell_self g _ _ _ h1.2.2.2.2]
    simp
  · exact h1
  · exact hp

theorem okPos_mono (g g' : Grid) (rows cols : Int) (p : Pos)
    (hw : ∀ r c, cellAt g' r c = Cell.wall → cellAt g r c = Cell.wall)
    (h : okPos g rows cols p) : okPos g' rows cols p :=
  ⟨h.1, h.2.1, h.2.2.1, h.2.2.2.1, fun hc => h.2.2.2.2 (hw _ _ hc)⟩

theorem ghostScan_ok (g : Grid) (rows cols : Int) (player : Pos)
    (accept : Nat → Bool) (cands : List Pos) (best : Pos) (bd k : Nat)
    (hb : okPos g rows cols best) :
    okPos g rows cols
      (ghostScan g rows cols player accept cands (best, bd, k)).1 := by
  induction cands generalizing best bd k with
  | nil => exact hb
  | cons c rest ih =>
    by_cases h : okPos g rows cols c
    · simp only [ghostScan, if_pos h]
      split_ifs with h1 h2
      · exact ih c _ _ h
      · exact ih c _ _ h
      · exact ih best bd _ hb
    · simp only [ghostScan, if_neg h]
      exact ih best bd k hb

theorem ghostMove_ok (g : Grid) (rows cols : Int) (player : Pos)
    (perm : List Nat) (accept : Nat → Bool) (gh : Pos) (k : Nat)
    (hb : okPos g rows cols gh) :
    okPos g rows cols (ghostMove g rows cols player perm accept gh k).1 :=
  ghostScan_ok g rows cols player accept _ gh _ k hb

theorem ghostsUpdate_ok (g : Grid) (rows cols : Int) (player : Pos)
    (perm : Nat → List Nat) (accept : Nat → Bool) (ghosts : List Pos)
    (gi k : Nat) (hg : ∀ gh ∈ ghosts, okPos g rows cols gh) :
    ∀ gh' ∈ ghostsUpdate g rows cols player perm accept ghosts gi k,
      okPos g rows cols gh' := by
  induction ghosts generalizing gi k with
  | nil =>
    intro gh' hmem
    exact absurd hmem (by simp [ghostsUpdate])
  | cons gh rest ih =>
    intro gh' hmem
    simp only [ghostsUpdate, List.mem_cons] at hmem
    rcases hmem with rfl | hmem
    · exact ghostMove_ok g rows cols player _ accept gh k (hg gh (by simp))
    · exact ih _ _ (fun x hx => hg x (by simp [hx])) gh' hmem

theorem erase_file_spec_witness :
    view_file (erase_file [("f.txt", "hello")] "f.txt" true).1 "f.txt"
      = some "" ∧
    erase_file [] "g.txt" true = ([], EraseRes.notFound) :=
  ⟨(erase_file_spec [("f.txt", "hello")] "f.txt" true).1 rfl,
   (erase_file_spec [] "g.txt" true).2 rfl⟩

/-- One step of the game loop preserves the positional invariant: the
player's move is only accepted into in-bounds non-wall cells, each ghost
only moves to candidates it has checked the same way, the life-loss respawn
targets the centre cell (non-wall by the invariant), and the only grid
mutation turns a dot into empty, never creating a wall. -/
theorem pacStep_preserves_inv (rng : PacRng) (st : PacState) (inp : PInput)
    (h : PacInv st) : PacInv (pacStep rng st inp) := by
  obtain ⟨hplayer, hghosts, hcenter⟩ := h
  by_cases hg : st.status = GStatus.running ∧ st.turns < maxTurns ∧ 0 < st.lives
  · unfold pacStep
    rw [if_pos hg]
    by_cases hq : inp = PInput.q
    · rw [if_pos hq]
      exact ⟨hplayer, hghosts, hcenter⟩
    · rw [if_neg hq]
      dsimp only
      have hwalls := playerStep_grid_walls st.grid st.rows st.cols st.player
        st.score (dirDelta inp).1 (dirDelta inp).2
      have hp1 := playerStep_ok st.grid st.rows st.cols st.player st.score
        (dirDelta inp).1 (dirDelta inp).2 hplayer
      have hg1 : ∀ gh ∈ st.ghosts,
          okPos (playerStep st.grid st.rows st.cols st.player st.score
            (dirDelta inp).1 (dirDelta inp).2).1 st.rows st.cols gh :=
        fun gh hgh => okPos_mono _ _ _ _ _ hwalls (hghosts gh hgh)
      have hgh1 := ghostsUpdate_ok
        (playerStep st.grid st.rows st.cols st.player st.score
          (dirDelta inp).1 (dirDelta inp).2).1 st.rows st.cols
        (playerStep st.grid st.rows st.cols st.player st.score
          (dirDelta inp).1 (dirDelta inp).2).2.1 rng.perm rng.accept
        st.ghosts 0 0 hg1
      have hc1 : okPos (playerStep st.grid st.rows st.cols st.player st.score
          (dirDelta inp).1 (dirDelta inp).2).1 st.rows st.cols
          (st.rows / 2, st.cols / 2) :=
        okPos_mono _ _ _ _ _ hwalls hcenter
      split_ifs
      · exact ⟨hc1, hgh1, hc1⟩
      · exact ⟨hp1, hgh1, hc1⟩
      · exact ⟨hp1, hgh1, hc1⟩
      · exact ⟨hp1, hgh1, hc1⟩
  · unfold pacStep
    rw [if_neg hg]
    exact ⟨hplayer, hghosts, hcenter⟩

/-! ## The claim theorems about the games -/

/-- C8: in the player move sub-step, a move whose target cell is a wall
leaves the grid, the player position and the score unchanged; an accepted
move (target in bounds and not a wall) onto a dot cell increments the score
by exactly 1, moves the player there, and clears that cell to empty. -/
theorem player_substep_wall_dot (g : Grid) (rows cols : Int) (p : Pos)
    (score : Nat) (dr dc : Int) :
    (cellAt g (p.1 + dr) (p.2 + dc) = Cell.wall →
      playerStep g rows cols p score dr dc = (g, p, score)) ∧
    (okPos g rows cols (p.1 + dr, p.2 + dc) →
      cellAt g (p.1 + dr) (p.2 + dc) = Cell.dot →
      (playerStep g rows cols p score dr dc).2.2 = score + 1 ∧
      (playerStep g rows cols p score dr dc).2.1 = (p.1 + dr, p.2 + dc) ∧
      cellAt (playerStep g rows cols p score dr dc).1 (p.1 + dr) (p.2 + dc)
        = Cell.empty) := by
  constructor
  · intro hw
    have hno : ¬ okPos g rows cols (p.1 + dr, p.2 + dc) :=
      fun hok => hok.2.2.2.2 hw
    simp [playerStep, hno]
  · intro hok hdot
    unfold playerStep
    rw [if_pos hok, if_pos hdot]
    exact ⟨rfl, rfl, cellAt_setCell_self g _ _ _ hok.2.2.2.2⟩

theorem player_substep_wall_dot_witness :
    playerStep (mkGrid 10 20) 10 20 (1, 1) 0 (-1) 0
      = (mkGrid 10 20, (1, 1), 0) ∧
    ((playerStep (mkGrid 10 20) 10 20 (5, 10) 7 0 1).2.2 = 8 ∧
      (playerStep (mkGrid 10 20) 10 20 (5, 10) 7 0 1).2.1 = (5, 11) ∧
      cellAt (playerStep (mkGrid 10 20) 10 20 (5, 10) 7 0 1).1 5 11
        = Cell.empty) :=
  ⟨(player_substep_wall_dot (mkGrid 10 20) 10 20 (1, 1) 0 (-1) 0).1 (by decide),
   (player_substep_wall_dot (mkGrid 10 20) 10 20 (5, 10) 7 0 1).2
     (by decide) (by decide)⟩

/-- C9: along every run of the pursuit game from any of the three level
presets — whatever the inputs and however the candidate shuffles and
tie-acceptance draws turn out — the player and every ghost are within the
grid bounds and never on a wall cell, in the initial state and after every
step (the centre respawn cell also stays non-wall, which is what makes the
life-loss respawn safe). -/
theorem pacman_position_invariant (rngs : Nat → PacRng) (inps : Nat → PInput)
    (cfg : Nat × Nat × Nat) (hcfg : cfg ∈ pacLevels) (n : Nat) :
    PacInv (pacRun rngs inps (pacInit cfg.1 cfg.2.1 cfg.2.2) n) := by
  induction n with
  | zero =>
    simp only [pacLevels, List.mem_cons, List.not_mem_nil, or_false] at hcfg
    rcases hcfg with rfl | rfl | rfl
    · exact (by decide : PacInv (pacInit 10 20 1))
    · exact (by decide : PacInv (pacInit 12 26 2))
    · exact (by decide : PacInv (pacInit 14 32 3))
  | succ n ih => exact pacStep_preserves_inv (rngs n) _ (inps n) ih

theorem pacman_position_invariant_witness :
    PacInv (pacRun (fun _ => rng0) (fun _ => PInput.w) (pacInit 10 20 1) 3) :=
  pacman_position_invariant (fun _ => rng0) (fun _ => PInput.w) (10, 20, 1)
    (by decide) 3

/-- C1 (counterexample): in `lastDotState` exactly one dot remains, directly
to the right of the player; the move `d` consumes it — the score goes up by
one and zero dots remain — yet the step does NOT transition to `Won` on that
tick: the status is still `running`, because the win check compares the dot
count taken at the start of the tick, before the move.  The immediately
following tick then reports the win. -/
theorem pacman_last_dot_not_won_same_tick :
    countDots lastDotState.grid = 1 ∧
    (pacStep rng0 lastDotState PInput.d).score = lastDotState.score + 1 ∧
    countDots (pacStep rng0 lastDotState PInput.d).grid = 0 ∧
    (pacStep rng0 lastDotState PInput.d).status = GStatus.running ∧
    (pacStep rng0 (pacStep rng0 lastDotState PInput.d) PInput.other).status
      = GStatus.won := by decide

/-- C1 (amended): the transition to `Won` happens one tick late: a step from
a running state within the turn and life budgets, on a non-quit input, whose
dot count at the START of the tick is zero, ends in `Won` — unless the
player collides with a ghost on that very tick, which instead costs a life
(and, at the last life, ends the game `lost` even though the board is
clear). -/
theorem pacman_won_next_tick (rng : PacRng) (st : PacState) (inp : PInput)
    (hrun : st.status = GStatus.running) (ht : st.turns < maxTurns)
    (hl : 0 < st.lives) (hq : inp ≠ PInput.q)
    (hdots : countDots st.grid = 0) :
    (pacStep rng st inp).status = GStatus.won ∨
      (pacStep rng st inp).lives < st.lives := by
  unfold pacStep
  rw [if_pos ⟨hrun, ht, hl⟩, if_neg hq]
  dsimp only
  split_ifs with hcol hlv
  · exact Or.inr (Nat.sub_lt hl Nat.one_pos)
  · exact Or.inr (Nat.sub_lt hl Nat.one_pos)
  · exact Or.inl rfl

theorem pacman_won_next_tick_witness :
    (pacStep rng0 noDotState PInput.other).status = GStatus.won ∨
      (pacStep rng0 noDotState PInput.other).lives < noDotState.lives :=
  pacman_won_next_tick rng0 noDotState PInput.other rfl (by decide)
    (by decide) (by decide) (by decide)

/-- C10: from a grounded running state, an accepted jump keeps the runner
airborne for the collision check of exactly that tick (`mario_y = 1`, one
countdown tick left, the tick cannot end in `dead`); by the collision check
of the immediately following tick — whatever that tick's input, short of
quitting, and whatever obstacles spawn — he is grounded again
(`mario_y = 0`); and a jump input pressed while airborne has no effect on
the jump state: it produces exactly the same state as waiting. -/
theorem mario_jump_one_tick (sp1 sp2 : Bool) (st : MarioState) (i2 : MInput)
    (hrun : st.status = MStatus.running) (hy : st.mario_y = 0) :
    (marioStep sp1 st MInput.j).mario_y = 1 ∧
    (marioStep sp1 st MInput.j).jump_ticks = 1 ∧
    (marioStep sp1 st MInput.j).status = MStatus.running ∧
    (i2 ≠ MInput.q →
      (marioStep sp2 (marioStep sp1 st MInput.j) i2).mario_y = 0) ∧
    marioStep sp2 (marioStep sp1 st MInput.j) MInput.j
      = marioStep sp2 (marioStep sp1 st MInput.j) MInput.wait := by
  have hs1 : marioStep sp1 st MInput.j =
      { mario_y := 1, jump_ticks := 1,
        obstacles := ((if sp1 then st.obstacles ++ [marioWidth - 1]
            else st.obstacles).map (fun x => x - 1)).filter
          (fun x => decide (0 ≤ x)),
        score := st.score + 1, status := MStatus.running } := by
    unfold marioStep
    rw [if_pos hrun, if_neg (by decide : ¬ (MInput.j = MInput.q))]
    dsimp only
    rw [if_pos (⟨rfl, hy⟩ : MInput.j = MInput.j ∧ st.mario_y = 0)]
    norm_num
    simp [hy]
  rw [hs1]
  refine ⟨rfl, rfl, rfl, ?_, ?_⟩
  · intro hq2
    unfold marioStep
    rw [if_pos rfl, if_neg hq2]
    have hnj : ¬ (i2 = MInput.j ∧ (1 : Nat) = 0) := fun hh => absurd hh.2 one_ne_zero
    dsimp only
    rw [if_neg hnj]
    norm_num
    split_ifs <;> rfl
  · unfold marioStep
    simp

theorem mario_jump_one_tick_witness :
    (marioStep false marioInit MInput.j).mario_y = 1 ∧
    (marioStep false marioInit MInput.j).jump_ticks = 1 ∧
    (marioStep false marioInit MInput.j).status = MStatus.running ∧
    (MInput.wait ≠ MInput.q →
      (marioStep false (marioStep false marioInit MInput.j)
        MInput.wait).mario_y = 0) ∧
    marioStep false (marioStep false marioInit MInput.j) MInput.j
      = marioStep false (marioStep false marioInit MInput.j) MInput.wait :=
  mario_jump_one_tick false false marioInit MInput.wait rfl rfl

end Manger
